import Mathlib

/-
Verification of the kinship paternity-index engine (src/kinship/kinship.py).

Shallow embedding conventions:
- Python numbers (allele repeat counts and population frequencies, floats in
  the source) are modelled as exact rationals `ℚ`; Python numeric equality
  across int/float is ℚ equality.
- Python dicts are modelled as association lists with unique keys in
  insertion order (`RawProfile`, `Population`); `dict[k]` is `alookup`,
  a failing `dict[k]` (KeyError) or `list[i]` (IndexError) is `Except.error`.
- `sorted` on marker names is insertion sort by code-point lexicographic
  order (`pySorted`), matching Python string comparison.
- A raised exception is `Except.error`; a returned value is `Except.ok`.
  `Duo.paternity_index` in the source returns either a `str` or a number;
  this mixed dynamic type is the inductive `PyValue`.
- In-place mutation of the caller's dicts (`del data['AMEL']` in
  `Duo._load_profile`) is modelled by explicit state passing: `duoInit`
  returns, besides the constructed object, the final states of the caller's
  `parent` and `child` dict arguments.
- Arithmetic is exact rational arithmetic; a division by a zero frequency
  (ZeroDivisionError in Python, `x / 0 = 0` in `ℚ`) occurs in no statement
  here: the spec requires nonzero frequencies for every profile allele, and
  every division proved about is by a concrete nonzero frequency.
-/

set_option maxRecDepth 4000

deriving instance DecidableEq for Except

abbrev Marker := String

abbrev RawProfile := List (Marker × List ℚ)

abbrev PopMarker := List (ℚ × ℚ)

abbrev Population := List (Marker × PopMarker)

/-- First-match association-list lookup: Python `dict[k]` / `dict.get(k)`
(dict keys are unique, so first match is the only match). -/
def alookup {α β : Type} [DecidableEq α] : List (α × β) → α → Option β
  | [], _ => none
  | kv :: rest, k => if kv.1 = k then some kv.2 else alookup rest k

/-- Python `del d[k]`: removes the (unique) entry with key `k`. -/
def eraseKey {β : Type} (k : Marker) : List (Marker × β) → List (Marker × β)
  | [] => []
  | kv :: rest => if kv.1 = k then rest else kv :: eraseKey k rest

/-- Code-point lexicographic comparison on character lists,
the order Python uses to compare strings. -/
def charsLe : List Char → List Char → Bool
  | [], _ => true
  | _ :: _, [] => false
  | a :: as, b :: bs => if a < b then true else if b < a then false else charsLe as bs

/-- Python `a <= b` on strings. -/
def strLe (a b : String) : Bool := charsLe a.data b.data

/-- Python `sorted` on a list of marker names. -/
def pySorted (l : List Marker) : List Marker :=
  l.insertionSort (fun a b => strLe a b = true)

/-- `Profile` (kinship.py lines 16-45): stores the raw dict, plus the
derived `markers` (sorted keys) and `alleles` (pairs aligned with the
sorted markers), here computed on demand from the stored dict. -/
structure Profile where
  profile : RawProfile
deriving DecidableEq

/-- `Profile._parse_markers`: keys sorted lexicographically. -/
def Profile.markers (pr : Profile) : List Marker :=
  pySorted (pr.profile.map Prod.fst)

/-- `Profile._parse_alleles`: `[tuple(self.profile[marker]) for marker in self.markers]`.
The `.getD []` default is unreachable: every sorted marker is a key of the dict. -/
def Profile.alleles (pr : Profile) : List (List ℚ) :=
  pr.markers.map (fun m => (alookup pr.profile m).getD [])

/-- `Duo` (kinship.py lines 48-65): the paternity-test case. -/
structure Duo where
  parent : Profile
  child : Profile
  markers : List Marker
  population : Population
deriving DecidableEq

/-- `Duo._load_profile` (lines 67-86): validates that every marker entry has
exactly two alleles (any failure is re-raised as one ValueError), then
executes `del data['AMEL']` if present.  The `isinstance(data, dict)` check
is vacuous here because the embedding types the argument as a dict.
Returns the final state of the caller's dict together with the `Profile`
built from that same (mutated) dict. -/
def load_profile (data : RawProfile) : Except String (RawProfile × Profile) :=
  if data.all (fun kv => kv.2.length == 2) then
    let data2 := if (data.map Prod.fst).contains "AMEL" then eraseKey "AMEL" data else data
    .ok (data2, ⟨data2⟩)
  else
    .error "Something went wrong, check previous error messages."

/-- `Duo.__init__` (lines 51-65): first compares the sorted key lists of the
two raw dicts (AMEL still included), then loads child, then parent (each load
may mutate the caller's dict), then `_get_markers` re-checks marker equality
(lines 88-96) and stores the parent's marker list.  Returns the constructed
`Duo` together with the final states of the caller's `parent` and `child`
dict arguments. -/
def duoInit (parent child : RawProfile) (population : Population) :
    Except String (Duo × RawProfile × RawProfile) :=
  if pySorted (parent.map Prod.fst) = pySorted (child.map Prod.fst) then
    match load_profile child with
    | .error e => .error e
    | .ok (childData, childP) =>
      match load_profile parent with
      | .error e => .error e
      | .ok (parentData, parentP) =>
        if parentP.markers = childP.markers then
          .ok (⟨parentP, childP, parentP.markers, population⟩, parentData, childData)
        else
          .error "Profiles introduced must have the same markers."
  else
    .error "To calculate the LR of a hypothesis being correct both profiles must have the same markers."

/-- The `Duo` produced by a successful construction
(junk value when construction fails; theorems also assert success). -/
def duoOf (parent child : RawProfile) (population : Population) : Duo :=
  match duoInit parent child population with
  | .ok x => x.1
  | .error _ => ⟨⟨[]⟩, ⟨[]⟩, [], []⟩

/-- Value of the `Duo.inconsistent_markers` property: the Python code returns
either the list of inconsistent marker names or the int `0`. -/
inductive InconsResult where
  | markers (l : List Marker)
  | zero
deriving DecidableEq

/-- The local list built by `Duo.inconsistent_markers` (lines 102-110):
a marker is appended when `len([allele for allele in c_alleles if allele
not in p_alleles]) != 1`. -/
def Duo.inconsistentList (d : Duo) : List Marker :=
  ((d.parent.markers.zip (d.parent.alleles.zip d.child.alleles)).filter
    (fun t => decide ((t.2.2.filter (fun a => decide (a ∉ t.2.1))).length ≠ 1))).map Prod.fst

/-- `Duo.inconsistent_markers` (lines 98-111):
`return inconsistent_markers if any(inconsistent_markers) else 0`.
Python `any` on a list of strings is true iff some element is non-empty. -/
def Duo.inconsistent_markers (d : Duo) : InconsResult :=
  let l := d.inconsistentList
  if l.any (fun s => decide (s ≠ "")) then .markers l else .zero

/-- The dynamic type of the value returned by `Duo.paternity_index`:
a Python `str` or a Python number. -/
inductive PyValue where
  | str (s : String)
  | num (q : ℚ)
deriving DecidableEq

/-- The f-string `f'There are {len(self.inconsistent_markers)} inconsistent markers.'`. -/
def diagString (n : ℕ) : String := s!"There are {n} inconsistent markers."

/-- `is_heterozygous` (lines 120-121): `len(np.unique(alleles)) == 2`. -/
def is_heterozygous (alleles : List ℚ) : Bool := alleles.dedup.length == 2

/-- `np.intersect1d`: sorted unique common values of the two arrays. -/
def intersect1d (p c : List ℚ) : List ℚ :=
  List.insertionSort (fun a b : ℚ => a ≤ b) ((p.filter (fun a => decide (a ∈ c))).dedup)

/-- Python `list[i]`: IndexError when out of range. -/
def pyIndex (l : List ℚ) (i : ℕ) : Except String ℚ :=
  match l[i]? with
  | some v => .ok v
  | none => .error "IndexError"

/-- Python `d[k]` on a dict: KeyError when the key is absent. -/
def dictGet {α β : Type} [DecidableEq α] (d : List (α × β)) (k : α) : Except String β :=
  match alookup d k with
  | some v => .ok v
  | none => .error "KeyError"

/-- Body of the per-marker loop of `Duo.paternity_index` (lines 126-143),
factored as the multiplier this marker contributes to `calc`: the four
`if` statements (whose conditions are mutually exclusive and exhaustive)
each multiply the accumulator.  The last branch is the source's literal
`calc *= 1 / pop[pop[0]]`: it indexes the frequency dict by the number `0`
and then re-indexes it by the frequency found there. -/
def markerFactor (pop : PopMarker) (p c : List ℚ) : Except String ℚ := do
  let mut acc : ℚ := 1
  if is_heterozygous p && is_heterozygous c then
    if (intersect1d p c).length == 2 then
      let p0 ← pyIndex p 0
      let a ← dictGet pop p0
      let p1 ← pyIndex p 1
      let b ← dictGet pop p1
      acc := acc * ((a + b) / (4 * a * b))
    else
      let shared ← pyIndex (intersect1d p c) 0
      let fs ← dictGet pop shared
      acc := acc * ((1/4) / fs)
  if is_heterozygous p && !(is_heterozygous c) then
    let p0 ← pyIndex p 0
    let f0 ← dictGet pop p0
    acc := acc * ((1/2) / f0)
  if !(is_heterozygous p) && is_heterozygous c then
    let p0 ← pyIndex p 0
    let f0 ← dictGet pop p0
    acc := acc * ((1/2) / f0)
  if !(is_heterozygous p) && !(is_heterozygous c) then
    let fr ← dictGet pop 0
    let fr2 ← dictGet pop fr
    acc := acc * (1 / fr2)
  return acc

/-- The `for m, p, c in zip(...)` loop of `Duo.paternity_index` with
accumulator `calc`; `pop = self.population[m]` is looked up first. -/
def piLoop (population : Population) :
    List (Marker × (List ℚ × List ℚ)) → ℚ → Except String PyValue
  | [], acc => .ok (.num acc)
  | (m, pc) :: rest, acc =>
    match dictGet population m with
    | .error e => .error e
    | .ok pop =>
      match markerFactor pop pc.1 pc.2 with
      | .error e => .error e
      | .ok f => piLoop population rest (acc * f)

/-- `Duo.paternity_index` (lines 113-145): if the `inconsistent_markers`
property is truthy (a non-empty list), return the diagnostic f-string;
otherwise run the per-marker product loop starting from `calc = 1`. -/
def Duo.paternity_index (d : Duo) : Except String PyValue :=
  match d.inconsistent_markers with
  | .markers l =>
    if l.isEmpty then
      piLoop d.population (d.markers.zip (d.parent.alleles.zip d.child.alleles)) 1
    else
      let n := l.length
      .ok (.str (diagString n))
  | .zero =>
    piLoop d.population (d.markers.zip (d.parent.alleles.zip d.child.alleles)) 1

/-- State-passing form of an access to the `paternity_index` property:
the property recomputes from `self` on each access and its body assigns
no attribute of `self`, so the post-access object state is the input object. -/
def Duo.paternityIndexRun (d : Duo) : Except String PyValue × Duo :=
  (d.paternity_index, d)

-- Concrete cases used by the claims.

def c1parent : RawProfile := [("CSF1PO", [13, 14])]

def c1child : RawProfile := [("CSF1PO", [13, 14])]

def c1pop : Population := [("CSF1PO", [(13, 1/5), (14, 3/10)])]

def c2parent : RawProfile := [("CSF1PO", [13, 14])]

def c2child : RawProfile := [("CSF1PO", [13, 15])]

def c2pop : Population := [("CSF1PO", [(13, 1/5), (14, 3/10), (15, 1/10)])]

def c4parent : RawProfile := [("CSF1PO", [13, 14])]

def c4child : RawProfile := [("CSF1PO", [15, 16])]

def c4pop : Population := [("CSF1PO", [(13, 1/5), (14, 3/10), (15, 1/10), (16, 1/20)])]

def c5pop : PopMarker := [(13, 1/5), (0, 1/2), (1/2, 1/10)]

def c5popNoZero : PopMarker := [(13, 1/5)]

def c7parent : RawProfile := [("CSF1PO", [13, 14])]

def c7child : RawProfile := [("CSF1PO", [13, 16])]

def c7pop : Population := [("CSF1PO", [(13, 1/5), (14, 3/10), (16, 1/20)])]

def e9parent : RawProfile := [("", [13, 13])]

def e9child : RawProfile := [("", [13, 13])]

def e9pop : Population := [("", [(13, 1/5), (0, 1/2), (1/2, 1/10)])]

def c3parent : RawProfile := [("CSF1PO", [13, 14])]

def c3child : RawProfile := [("CSF1PO", [13, 14])]

def c3pop : Population := [("CSF1PO", [(13, 1/5), (14, 3/10)])]

def c6parent : RawProfile := [("CSF1PO", [13, 14])]

def c6child : RawProfile := [("CSF1PO", [14, 15])]

def c6pop : Population := [("CSF1PO", [(13, 1/5), (14, 3/10), (15, 1/10)])]

def c9parent : RawProfile := [("CSF1PO", [13, 14])]

def c9child : RawProfile := [("CSF1PO", [13, 13])]

def c9pop : Population := [("CSF1PO", [(13, 1/5), (14, 3/10)])]

def c10parent : RawProfile := [("AMEL", [1, 2]), ("CSF1PO", [13, 14])]

def c10child : RawProfile := [("AMEL", [1, 2]), ("CSF1PO", [13, 15])]

def c10pop : Population := [("CSF1PO", [(13, 1/5), (14, 3/10), (15, 1/10)])]

/-- Claim C1: for parent {CSF1PO: [13,14]}, child {CSF1PO: [13,14]},
population {CSF1PO: {13: 0.2, 14: 0.3}}, the claim expects the ratio
(0.2+0.3)/(4·0.2·0.3) = 25/12.  The code instead classifies the marker
inconsistent (zero child alleles fall outside the parent pair, and the
check flags any count other than one) and returns the diagnostic string;
the shares-both-alleles branch of the ratio computation, which would
produce exactly 25/12, is dead code for this input. -/
theorem c1_hetHet_sharesBoth_flagged_inconsistent :
    duoInit c1parent c1child c1pop = .ok (duoOf c1parent c1child c1pop, c1parent, c1child)
    ∧ (duoOf c1parent c1child c1pop).inconsistent_markers = .markers ["CSF1PO"]
    ∧ (duoOf c1parent c1child c1pop).paternity_index
        = .ok (.str "There are 1 inconsistent markers.")
    ∧ markerFactor [(13, 1/5), (14, 3/10)] [13, 14] [13, 14] = .ok (25/12) := by
  refine ⟨?_, ?_, ?_, ?_⟩ <;> with_unfolding_all decide

/-- Claim C2 counterexample: for parent {CSF1PO: [13,14]}, child
{CSF1PO: [13,15]}, population {CSF1PO: {13: 0.2, 14: 0.3, 15: 0.1}},
the marker is NOT classified inconsistent (exactly one child allele, 15,
falls outside the parent pair, so the check count is 1) and
paternity_index returns the number 0.25/0.2 = 5/4, not a diagnostic. -/
theorem c2_oneSharedAllele_is_consistent :
    duoInit c2parent c2child c2pop = .ok (duoOf c2parent c2child c2pop, c2parent, c2child)
    ∧ (duoOf c2parent c2child c2pop).inconsistent_markers = .zero
    ∧ (duoOf c2parent c2child c2pop).paternity_index = .ok (.num (5/4)) := by
  refine ⟨?_, ?_, ?_⟩ <;> with_unfolding_all decide

/-- Claim C2 as amended: on that input the marker is classified consistent
(the inconsistency list is empty), and paternity_index returns the numeric
ratio 0.25 / f(13) where f(13) = 1/5, i.e. 1.25. -/
theorem c2_amended_consistent_ratio :
    (duoOf c2parent c2child c2pop).inconsistentList = []
    ∧ alookup [(13, 1/5), (14, 3/10), (15, 1/10)] (13 : ℚ) = some (1/5)
    ∧ (duoOf c2parent c2child c2pop).paternity_index = .ok (.num ((1/4) / (1/5))) := by
  refine ⟨?_, ?_, ?_⟩ <;> with_unfolding_all decide

/-- Claim C4: whenever a marker is inconsistent the code returns a Python
`str` (here for parent {CSF1PO: [13,14]}, child {CSF1PO: [15,16]}), i.e. a
string mixed into the numeric-typed return, reporting only the count and
not identifying the markers — not the distinct typed diagnostic variant
the claim requires. -/
theorem c4_diagnostic_is_a_string :
    duoInit c4parent c4child c4pop = .ok (duoOf c4parent c4child c4pop, c4parent, c4child)
    ∧ (duoOf c4parent c4child c4pop).inconsistent_markers = .markers ["CSF1PO"]
    ∧ (duoOf c4parent c4child c4pop).paternity_index
        = .ok (.str "There are 1 inconsistent markers.") := by
  refine ⟨?_, ?_, ?_⟩ <;> with_unfolding_all decide

/-- Claim C5: in the homozygous-parent/homozygous-child branch the code
computes `1 / pop[pop[0]]` instead of `1 / pop[p[0]]`.  With parent pair
[13,13], child pair [13,13] and frequency table {13: 1/5, 0: 1/2, 1/2: 1/10}
the code yields 1/(1/10) = 10, while the claimed contribution is
1/f(13) = 1/(1/5) = 5.  With a table lacking the key 0 (the realistic
case) the double lookup raises KeyError instead of contributing 1/f(p1). -/
theorem c5_homHom_double_lookup :
    markerFactor c5pop [13, 13] [13, 13] = .ok 10
    ∧ alookup c5pop (13 : ℚ) = some (1/5)
    ∧ (1 : ℚ) / (1/5) = 5
    ∧ (10 : ℚ) ≠ 5
    ∧ markerFactor c5popNoZero [13, 13] [13, 13] = .error "KeyError" := by
  refine ⟨?_, ?_, ?_, ?_, ?_⟩ <;> with_unfolding_all decide

/-- Claim C7: for parent {CSF1PO: [13,14]}, child {CSF1PO: [13,16]} with 16
present in the population table and f(13) = 1/5, the marker is consistent
(exactly one shared allele, 13) and paternity_index returns 0.25/f(13) = 5/4. -/
theorem c7_oneShared_ratio :
    duoInit c7parent c7child c7pop = .ok (duoOf c7parent c7child c7pop, c7parent, c7child)
    ∧ (duoOf c7parent c7child c7pop).inconsistent_markers = .zero
    ∧ (duoOf c7parent c7child c7pop).paternity_index = .ok (.num (5/4)) := by
  refine ⟨?_, ?_, ?_⟩ <;> with_unfolding_all decide

/-- Claim C9 counterexample: a successfully constructed case whose only
marker (named by the empty string) has a homozygous child pair [13,13];
the marker is put on the inconsistency list, but `any` over the falsy
name yields the falsy `0`, so paternity_index does not short-circuit:
it reaches the homozygous/homozygous branch and returns the numeric 10 —
a numeric ratio despite a homozygous child pair. -/
theorem c9_homozygous_child_numeric_result :
    duoInit e9parent e9child e9pop = .ok (duoOf e9parent e9child e9pop, e9parent, e9child)
    ∧ is_heterozygous [13, 13] = false
    ∧ (duoOf e9parent e9child e9pop).inconsistentList = [""]
    ∧ (duoOf e9parent e9child e9pop).inconsistent_markers = .zero
    ∧ (duoOf e9parent e9child e9pop).paternity_index = .ok (.num 10) := by
  refine ⟨?_, ?_, ?_, ?_, ?_⟩ <;> with_unfolding_all decide

/-- Claim C8: accessing `paternity_index` twice yields the identical result
and leaves the case's stored profiles, marker list and population table
unchanged (the property performs no mutation). -/
theorem paternity_index_idempotent_no_mutation (d : Duo) :
    (d.paternityIndexRun.2.paternityIndexRun).1 = d.paternityIndexRun.1
    ∧ d.paternityIndexRun.2.parent = d.parent
    ∧ d.paternityIndexRun.2.child = d.child
    ∧ d.paternityIndexRun.2.markers = d.markers
    ∧ d.paternityIndexRun.2.population = d.population :=
  ⟨rfl, rfl, rfl, rfl, rfl⟩

-- Order properties of the string comparison used by `pySorted`.

theorem charsLe_total : ∀ as bs : List Char, charsLe as bs = true ∨ charsLe bs as = true := by
  intro as
  induction as with
  | nil => intro bs; left; rfl
  | cons a as ih =>
    intro bs
    cases bs with
    | nil => right; rfl
    | cons b bs =>
      simp only [charsLe]
      rcases lt_trichotomy a b with h | h | h
      · left; simp [h]
      · subst h
        simp only [lt_irrefl, if_false]
        exact ih bs
      · right; simp [h]

theorem charsLe_antisymm : ∀ as bs : List Char,
    charsLe as bs = true → charsLe bs as = true → as = bs := by
  intro as
  induction as with
  | nil =>
    intro bs h1 h2
    cases bs with
    | nil => rfl
    | cons b bs => simp [charsLe] at h2
  | cons a as ih =>
    intro bs h1 h2
    cases bs with
    | nil => simp [charsLe] at h1
    | cons b bs =>
      simp only [charsLe] at h1 h2
      rcases lt_trichotomy a b with h | h | h
      · simp [h, not_lt_of_gt h] at h2
      · subst h
        simp only [lt_irrefl, if_false] at h1 h2
        rw [ih bs h1 h2]
      · simp [h, not_lt_of_gt h] at h1

theorem charsLe_trans : ∀ as bs cs : List Char,
    charsLe as bs = true → charsLe bs cs = true → charsLe as cs = true := by
  intro as
  induction as with
  | nil => intros; rfl
  | cons a as ih =>
    intro bs cs h1 h2
    cases bs with
    | nil => simp [charsLe] at h1
    | cons b bs =>
      cases cs with
      | nil => simp [charsLe] at h2
      | cons c cs =>
        simp only [charsLe] at h1 h2 ⊢
        rcases lt_trichotomy a b with hab | hab | hab
        · rcases lt_trichotomy b c with hbc | hbc | hbc
          · simp [lt_trans hab hbc]
          · subst hbc; simp [hab]
          · simp [hbc, not_lt_of_gt hbc] at h2
        · subst hab
          rcases lt_trichotomy a c with hac | hac | hac
          · simp [hac]
          · subst hac
            simp only [lt_irrefl, if_false] at h1 h2 ⊢
            exact ih bs cs h1 h2
          · simp [hac, not_lt_of_gt hac] at h2
        · simp [hab, not_lt_of_gt hab] at h1

instance : IsTotal Marker (fun a b => strLe a b = true) :=
  ⟨fun a b => charsLe_total a.data b.data⟩

instance : IsTrans Marker (fun a b => strLe a b = true) :=
  ⟨fun a b c => charsLe_trans a.data b.data c.data⟩

instance : IsAntisymm Marker (fun a b => strLe a b = true) :=
  ⟨fun a b h1 h2 => by
    have h3 := charsLe_antisymm a.data b.data h1 h2
    cases a; cases b; exact congrArg String.mk h3⟩

theorem pySorted_perm (l : List Marker) : (pySorted l).Perm l :=
  List.perm_insertionSort _ l

theorem mem_pySorted {l : List Marker} {m : Marker} : m ∈ pySorted l ↔ m ∈ l :=
  (pySorted_perm l).mem_iff

theorem pySorted_sorted (l : List Marker) :
    List.Sorted (fun a b => strLe a b = true) (pySorted l) :=
  List.sorted_insertionSort _ l

theorem pySorted_eq_of_perm {l1 l2 : List Marker} (h : l1.Perm l2) :
    pySorted l1 = pySorted l2 :=
  List.eq_of_perm_of_sorted ((pySorted_perm l1).trans (h.trans (pySorted_perm l2).symm))
    (pySorted_sorted l1) (pySorted_sorted l2)

theorem perm_of_pySorted_eq {l1 l2 : List Marker} (h : pySorted l1 = pySorted l2) :
    l1.Perm l2 :=
  (pySorted_perm l1).symm.trans (h ▸ pySorted_perm l2)

-- Association-list (Python dict) lemmas.

theorem alookup_eq_some_of_mem_keys {β : Type} {d : List (Marker × β)} {k : Marker}
    (h : k ∈ d.map Prod.fst) : ∃ v, alookup d k = some v := by
  induction d with
  | nil => simp at h
  | cons kv rest ih =>
    by_cases hk : kv.1 = k
    · exact ⟨kv.2, by simp [alookup, hk]⟩
    · simp only [List.map_cons, List.mem_cons] at h
      rcases h with h | h
      · exact absurd h.symm hk
      · obtain ⟨v, hv⟩ := ih h
        exact ⟨v, by simp [alookup, hk, hv]⟩

theorem mem_of_alookup_eq_some {β : Type} {d : List (Marker × β)} {k : Marker} {v : β}
    (h : alookup d k = some v) : (k, v) ∈ d := by
  induction d with
  | nil => simp [alookup] at h
  | cons kv rest ih =>
    by_cases hk : kv.1 = k
    · simp only [alookup, hk, if_true, Option.some.injEq] at h
      subst h; subst hk
      exact List.mem_cons_self _ _
    · simp only [alookup, hk, if_false] at h
      exact List.mem_cons_of_mem _ (ih h)

theorem mem_of_mem_eraseKey {β : Type} {d : List (Marker × β)} {k : Marker}
    {kv : Marker × β} (h : kv ∈ eraseKey k d) : kv ∈ d := by
  induction d with
  | nil => simp [eraseKey] at h
  | cons hd rest ih =>
    simp only [eraseKey] at h
    by_cases hk : hd.1 = k
    · simp only [hk, if_true] at h
      exact List.mem_cons_of_mem _ h
    · simp only [hk, if_false, List.mem_cons] at h
      rcases h with h | h
      · exact h ▸ List.mem_cons_self _ _
      · exact List.mem_cons_of_mem _ (ih h)

theorem eraseKey_map_fst {β : Type} (k : Marker) (d : List (Marker × β)) :
    (eraseKey k d).map Prod.fst = (d.map Prod.fst).erase k := by
  induction d with
  | nil => rfl
  | cons kv rest ih =>
    simp only [eraseKey, List.map_cons, List.erase_cons]
    by_cases hk : kv.1 = k
    · simp [hk]
    · simp [hk, ih]

theorem eraseKey_eq_self {β : Type} {k : Marker} {d : List (Marker × β)}
    (h : (d.map Prod.fst).contains k = false) : eraseKey k d = d := by
  induction d with
  | nil => rfl
  | cons kv rest ih =>
    simp only [List.map_cons, List.contains_cons, Bool.or_eq_false_iff, beq_eq_false_iff_ne,
      ne_eq] at h
    simp only [eraseKey]
    rw [if_neg (fun hk => h.1 hk.symm), ih h.2]

theorem alookup_eq_none_of_not_mem {β : Type} {d : List (Marker × β)} {k : Marker}
    (h : k ∉ d.map Prod.fst) : alookup d k = none := by
  induction d with
  | nil => rfl
  | cons kv rest ih =>
    simp only [List.map_cons, List.mem_cons, not_or] at h
    simp only [alookup]
    rw [if_neg (fun he => h.1 he.symm)]
    exact ih h.2

theorem alookup_eraseKey_self {β : Type} {d : List (Marker × β)} {k : Marker}
    (h : (d.map Prod.fst).Nodup) : alookup (eraseKey k d) k = none := by
  induction d with
  | nil => rfl
  | cons kv rest ih =>
    simp only [List.map_cons, List.nodup_cons] at h
    simp only [eraseKey]
    by_cases hk : kv.1 = k
    · rw [if_pos hk]
      exact alookup_eq_none_of_not_mem (hk ▸ h.1)
    · rw [if_neg hk]
      simp only [alookup]
      rw [if_neg hk]
      exact ih h.2

theorem alookup_eraseKey_ne {β : Type} {d : List (Marker × β)} {k k2 : Marker}
    (h : k2 ≠ k) : alookup (eraseKey k d) k2 = alookup d k2 := by
  induction d with
  | nil => rfl
  | cons kv rest ih =>
    simp only [eraseKey]
    by_cases hk : kv.1 = k
    · rw [if_pos hk]
      have hne : kv.1 ≠ k2 := fun he => h (by rw [← he, hk])
      simp only [alookup]
      rw [if_neg hne]
    · rw [if_neg hk]
      simp only [alookup]
      by_cases hk2 : kv.1 = k2
      · rw [if_pos hk2, if_pos hk2]
      · rw [if_neg hk2, if_neg hk2]
        exact ih

-- Inversion of `load_profile` and `duoInit`.

theorem load_profile_ok_iff {data : RawProfile} {x : RawProfile × Profile} :
    load_profile data = .ok x ↔
      ((∀ kv ∈ data, kv.2.length = 2)
        ∧ x = (eraseKey "AMEL" data, ⟨eraseKey "AMEL" data⟩)) := by
  unfold load_profile
  by_cases hall : data.all (fun kv => kv.2.length == 2)
  · have hall2 : ∀ kv ∈ data, kv.2.length = 2 := by
      intro kv hkv
      simpa using List.all_eq_true.mp hall kv hkv
    by_cases hc : (data.map Prod.fst).contains "AMEL"
    · simp only [hall, if_true, hc, Except.ok.injEq]
      exact ⟨fun h => ⟨hall2, h.symm⟩, fun h => h.2.symm⟩
    · simp only [hall, if_true, Bool.not_eq_true] at *
      simp only [hc, if_false, Except.ok.injEq,
        eraseKey_eq_self (d := data) (by simpa using hc)]
      exact ⟨fun h => ⟨hall2, h.symm⟩, fun h => h.2.symm⟩
  · simp only [hall, if_false]
    constructor
    · intro h; exact absurd h (by simp)
    · intro ⟨h2, _⟩
      exact absurd (List.all_eq_true.mpr (fun kv hkv => by simpa using h2 kv hkv)) hall

theorem duoInit_ok {parent child : RawProfile} {pop : Population} {d : Duo}
    {pr cr : RawProfile}
    (h : duoInit parent child pop = .ok (d, pr, cr)) :
    pr = eraseKey "AMEL" parent ∧ cr = eraseKey "AMEL" child
    ∧ d = ⟨⟨pr⟩, ⟨cr⟩, Profile.markers ⟨pr⟩, pop⟩
    ∧ (∀ kv ∈ parent, kv.2.length = 2) ∧ (∀ kv ∈ child, kv.2.length = 2)
    ∧ Profile.markers ⟨pr⟩ = Profile.markers ⟨cr⟩
    ∧ pySorted (parent.map Prod.fst) = pySorted (child.map Prod.fst) := by
  unfold duoInit at h
  by_cases hsort : pySorted (parent.map Prod.fst) = pySorted (child.map Prod.fst)
  · rw [if_pos hsort] at h
    cases hlc : load_profile child with
    | error e => rw [hlc] at h; exact absurd h (by simp)
    | ok xc =>
      rw [hlc] at h
      obtain ⟨h2c, hxc⟩ := load_profile_ok_iff.mp hlc
      cases hlp : load_profile parent with
      | error e => rw [hlp] at h; exact absurd h (by simp)
      | ok xp =>
        rw [hlp] at h
        obtain ⟨h2p, hxp⟩ := load_profile_ok_iff.mp hlp
        subst hxc; subst hxp
        simp only [] at h
        by_cases hmk : Profile.markers ⟨eraseKey "AMEL" parent⟩
            = Profile.markers ⟨eraseKey "AMEL" child⟩
        · rw [if_pos hmk] at h
          simp only [Except.ok.injEq, Prod.mk.injEq] at h
          obtain ⟨hd, hpr, hcr⟩ := h
          subst hpr; subst hcr
          exact ⟨rfl, rfl, hd.symm, h2p, h2c, hmk, hsort⟩
        · rw [if_neg hmk] at h
          exact absurd h (by simp)
  · rw [if_neg hsort] at h
    exact absurd h (by simp)

-- Structure of the marker/allele triples iterated by the analysis loops.

theorem mem_zip_maps {ms : List Marker} {f g : Marker → List ℚ} {m : Marker} {p c : List ℚ}
    (h : (m, (p, c)) ∈ ms.zip ((ms.map f).zip (ms.map g))) :
    m ∈ ms ∧ p = f m ∧ c = g m := by
  induction ms with
  | nil => simp at h
  | cons a tl ih =>
    simp only [List.map_cons, List.zip_cons_cons, List.mem_cons, Prod.mk.injEq] at h
    rcases h with ⟨h1, h2, h3⟩ | h
    · subst h1
      exact ⟨List.mem_cons_self _ _, h2, h3⟩
    · obtain ⟨h1, h2, h3⟩ := ih h
      exact ⟨List.mem_cons_of_mem _ h1, h2, h3⟩

theorem zip_maps_mem {ms : List Marker} {f g : Marker → List ℚ} {m : Marker}
    (h : m ∈ ms) : (m, (f m, g m)) ∈ ms.zip ((ms.map f).zip (ms.map g)) := by
  induction ms with
  | nil => simp at h
  | cons a tl ih =>
    simp only [List.map_cons, List.zip_cons_cons, List.mem_cons] at h ⊢
    rcases h with h | h
    · subst h; left; rfl
    · right; exact ih h

theorem countP_mem_split (p c : List ℚ) :
    c.countP (fun a => decide (a ∉ p)) + c.countP (fun a => decide (a ∈ p)) = c.length := by
  simp only [decide_not]
  induction c with
  | nil => rfl
  | cons a tl ih =>
    simp only [List.countP_cons, List.length_cons]
    by_cases hm : a ∈ p <;> simp [hm] <;> omega

theorem duo_triples_struct {parent child : RawProfile} {pop : Population} {d : Duo}
    {pr cr : RawProfile}
    (h : duoInit parent child pop = .ok (d, pr, cr)) :
    d.parent.markers.zip (d.parent.alleles.zip d.child.alleles)
      = (Profile.markers ⟨pr⟩).zip
          (((Profile.markers ⟨pr⟩).map (fun m => (alookup pr m).getD [])).zip
            ((Profile.markers ⟨pr⟩).map (fun m => (alookup cr m).getD []))) := by
  obtain ⟨hpr, hcr, hd, -, -, hmk, -⟩ := duoInit_ok h
  subst hd
  show (Profile.markers ⟨pr⟩).zip ((Profile.alleles ⟨pr⟩).zip (Profile.alleles ⟨cr⟩)) = _
  simp only [Profile.alleles]
  rw [← hmk]

theorem duo_child_pair_length {parent child : RawProfile} {pop : Population} {d : Duo}
    {pr cr : RawProfile}
    (h : duoInit parent child pop = .ok (d, pr, cr))
    {m : Marker} {p c : List ℚ}
    (hm : (m, (p, c)) ∈ d.parent.markers.zip (d.parent.alleles.zip d.child.alleles)) :
    c.length = 2 ∧ p = (alookup pr m).getD [] ∧ c = (alookup cr m).getD []
      ∧ m ∈ Profile.markers ⟨pr⟩ := by
  obtain ⟨hpr, hcr, hd, h2p, h2c, hmk, hsort⟩ := duoInit_ok h
  rw [duo_triples_struct h] at hm
  obtain ⟨hmem, hp, hc⟩ := mem_zip_maps hm
  refine ⟨?_, hp, hc, hmem⟩
  have hmem3 : m ∈ Profile.markers ⟨cr⟩ := hmk ▸ hmem
  have hmem2 : m ∈ cr.map Prod.fst := mem_pySorted.mp hmem3
  obtain ⟨v, hv⟩ := alookup_eq_some_of_mem_keys hmem2
  have hvchild : (m, v) ∈ child := mem_of_mem_eraseKey (hcr ▸ mem_of_alookup_eq_some hv)
  have hvl := h2c (m, v) hvchild
  rw [hc, hv]
  exact hvl

theorem duo_triples_uniq {parent child : RawProfile} {pop : Population} {d : Duo}
    {pr cr : RawProfile}
    (h : duoInit parent child pop = .ok (d, pr, cr))
    {m : Marker} {p c : List ℚ}
    (hm : (m, (p, c)) ∈ d.parent.markers.zip (d.parent.alleles.zip d.child.alleles)) :
    ∀ t ∈ d.parent.markers.zip (d.parent.alleles.zip d.child.alleles),
      t.1 = m → t = (m, (p, c)) := by
  rw [duo_triples_struct h] at hm ⊢
  obtain ⟨-, hp, hc⟩ := mem_zip_maps hm
  rintro ⟨t1, t2, t3⟩ ht h1
  obtain ⟨-, hp2, hc2⟩ := mem_zip_maps ht
  simp only at h1
  subst h1
  rw [hp2, hc2, hp, hc]

theorem mem_inconsistentList_iff {d : Duo} {m : Marker} {p c : List ℚ}
    (hm : (m, (p, c)) ∈ d.parent.markers.zip (d.parent.alleles.zip d.child.alleles))
    (huniq : ∀ t ∈ d.parent.markers.zip (d.parent.alleles.zip d.child.alleles),
        t.1 = m → t = (m, (p, c))) :
    m ∈ d.inconsistentList ↔ (c.filter (fun a => decide (a ∉ p))).length ≠ 1 := by
  unfold Duo.inconsistentList
  constructor
  · intro hmem
    rw [List.mem_map] at hmem
    obtain ⟨t, ht, hteq⟩ := hmem
    rw [List.mem_filter] at ht
    have heq := huniq t ht.1 hteq
    have hcond := ht.2
    rw [heq] at hcond
    exact of_decide_eq_true hcond
  · intro hcond
    exact List.mem_map.mpr
      ⟨(m, (p, c)), List.mem_filter.mpr ⟨hm, decide_eq_true hcond⟩, rfl⟩

theorem is_heterozygous_pair_eq {a b : ℚ} (h : is_heterozygous [a, b] = false) : a = b := by
  by_cases hab : a = b
  · exact hab
  · exfalso
    have h2 : List.dedup [a, b] = [a, b] := List.dedup_eq_self.mpr (by simp [hab])
    rw [is_heterozygous, h2] at h
    simp at h

/-- Helper: for every successfully constructed case and every
marker/parent-pair/child-pair triple iterated by the inconsistency check,
the marker is on the LOCAL flagged list built at lines 102-110 exactly when
the number of child alleles appearing (by plain list membership) in the
parent pair is zero or two, and off it exactly when that number is one.
This characterizes the local list only; what the `inconsistent_markers`
property then RETURNS passes through `any(...)` truthiness (line 111). -/
theorem inconsistentList_count_rule {parent child : RawProfile} {pop : Population}
    {d : Duo} {pr cr : RawProfile}
    (h : duoInit parent child pop = .ok (d, pr, cr))
    {m : Marker} {p c : List ℚ}
    (hm : (m, (p, c)) ∈ d.parent.markers.zip (d.parent.alleles.zip d.child.alleles)) :
    m ∈ d.inconsistentList
      ↔ (c.countP (fun a => decide (a ∈ p)) = 0 ∨ c.countP (fun a => decide (a ∈ p)) = 2) := by
  obtain ⟨hlen, -, -, -⟩ := duo_child_pair_length h hm
  rw [mem_inconsistentList_iff hm (duo_triples_uniq h hm)]
  rw [← List.countP_eq_length_filter]
  have hsplit := countP_mem_split p c
  have hle : c.countP (fun a => decide (a ∈ p)) ≤ c.length := List.countP_le_length _
  omega

/-- Claim C3 counterexample: the valid case parent {'': [13,13]},
child {'': [13,13]} constructs successfully; its only marker is iterated
with both child alleles occurring in the parent pair (membership count 2),
so the claim requires `inconsistent_markers` to include that marker — but
the property returns the falsy `0` (`any` over the flagged list [''] is
false), a value that includes no marker at all. -/
theorem c3_property_falsy_name_counterexample :
    duoInit e9parent e9child e9pop = .ok (duoOf e9parent e9child e9pop, e9parent, e9child)
    ∧ ("", (([13, 13] : List ℚ), ([13, 13] : List ℚ)))
        ∈ (duoOf e9parent e9child e9pop).parent.markers.zip
          ((duoOf e9parent e9child e9pop).parent.alleles.zip
            (duoOf e9parent e9child e9pop).child.alleles)
    ∧ ([13, 13] : List ℚ).countP (fun a => decide (a ∈ ([13, 13] : List ℚ))) = 2
    ∧ (duoOf e9parent e9child e9pop).inconsistentList = [""]
    ∧ (duoOf e9parent e9child e9pop).inconsistent_markers = .zero := by
  refine ⟨?_, ?_, ?_, ?_, ?_⟩ <;> with_unfolding_all decide

/-- Claim C3 as amended: for every successfully constructed case and every
iterated marker/parent-pair/child-pair triple whose marker name is a
non-empty string (Python-truthy, as every real marker name is), the
collection returned by the `inconsistent_markers` PROPERTY contains the
marker exactly when the number of child alleles appearing (by plain list
membership) in the parent pair is zero or two, and omits it exactly when
that number is one; a homozygous child pair whose value occurs in the
parent pair counts two membership hits and is classified inconsistent.
Without the non-empty-name proviso the include-half fails: when every
flagged marker name is falsy the property returns the falsy `0`, which
omits every marker. -/
theorem c3_amended_property_membership_rule {parent child : RawProfile} {pop : Population}
    {d : Duo} {pr cr : RawProfile}
    (h : duoInit parent child pop = .ok (d, pr, cr))
    {m : Marker} {p c : List ℚ}
    (hm : (m, (p, c)) ∈ d.parent.markers.zip (d.parent.alleles.zip d.child.alleles))
    (hname : m ≠ "") :
    (∃ l, d.inconsistent_markers = .markers l ∧ m ∈ l)
      ↔ (c.countP (fun a => decide (a ∈ p)) = 0 ∨ c.countP (fun a => decide (a ∈ p)) = 2) := by
  have hrule := inconsistentList_count_rule h hm
  constructor
  · rintro ⟨l, hl, hml⟩
    simp only [Duo.inconsistent_markers] at hl
    split at hl
    · injection hl with hl2
      exact hrule.mp (hl2 ▸ hml)
    · simp at hl
  · intro hcount
    have hmem : m ∈ d.inconsistentList := hrule.mpr hcount
    have hex : ∃ x ∈ d.inconsistentList, ¬x = "" := ⟨m, hmem, hname⟩
    refine ⟨d.inconsistentList, ?_, hmem⟩
    unfold Duo.inconsistent_markers
    simp [hex]

/-- Claim C3 amended witness: for parent pair [13,14] and child pair [13,14]
at the non-empty-named marker CSF1PO, both child alleles occur in the parent
pair (count 2), so the `inconsistent_markers` property returns a list
containing CSF1PO. -/
theorem c3_amended_property_witness :
    (∃ l, (duoOf c3parent c3child c3pop).inconsistent_markers = .markers l
        ∧ "CSF1PO" ∈ l)
      ↔ (([13, 14] : List ℚ).countP (fun a => decide (a ∈ ([13, 14] : List ℚ))) = 0
        ∨ ([13, 14] : List ℚ).countP (fun a => decide (a ∈ ([13, 14] : List ℚ))) = 2) :=
  c3_amended_property_membership_rule
    (show duoInit c3parent c3child c3pop
        = .ok (duoOf c3parent c3child c3pop, c3parent, c3child) by
      with_unfolding_all decide)
    (show ("CSF1PO", (([13, 14] : List ℚ), ([13, 14] : List ℚ)))
        ∈ (duoOf c3parent c3child c3pop).parent.markers.zip
          ((duoOf c3parent c3child c3pop).parent.alleles.zip
            (duoOf c3parent c3child c3pop).child.alleles) by
      with_unfolding_all decide)
    (by decide)

/-- Claim C6: with dict inputs (so the not-a-mapping disjunct of the claim is
settled by the embedding's types) and unique keys as Python dicts guarantee,
construction succeeds exactly when the two raw profiles have the same
marker-name sets and every allele entry of both profiles has length two;
it fails with the (single) ValueError kind otherwise. -/
theorem c6_construction_succeeds_iff {parent child : RawProfile} {pop : Population}
    (hp : (parent.map Prod.fst).Nodup) (hc : (child.map Prod.fst).Nodup) :
    (∃ x, duoInit parent child pop = .ok x)
      ↔ ((∀ m, m ∈ parent.map Prod.fst ↔ m ∈ child.map Prod.fst)
          ∧ (∀ kv ∈ parent, kv.2.length = 2) ∧ (∀ kv ∈ child, kv.2.length = 2)) := by
  constructor
  · rintro ⟨⟨d, pr, cr⟩, hx⟩
    obtain ⟨-, -, -, h2p, h2c, -, hsort⟩ := duoInit_ok hx
    exact ⟨fun m => (perm_of_pySorted_eq hsort).mem_iff, h2p, h2c⟩
  · rintro ⟨hmem, h2p, h2c⟩
    have hperm : (parent.map Prod.fst).Perm (child.map Prod.fst) :=
      (List.perm_ext_iff_of_nodup hp hc).mpr hmem
    have hsort := pySorted_eq_of_perm hperm
    have hlc : load_profile child = .ok (eraseKey "AMEL" child, ⟨eraseKey "AMEL" child⟩) :=
      load_profile_ok_iff.mpr ⟨h2c, rfl⟩
    have hlp : load_profile parent = .ok (eraseKey "AMEL" parent, ⟨eraseKey "AMEL" parent⟩) :=
      load_profile_ok_iff.mpr ⟨h2p, rfl⟩
    have hmk : Profile.markers ⟨eraseKey "AMEL" parent⟩
        = Profile.markers ⟨eraseKey "AMEL" child⟩ := by
      show pySorted ((eraseKey "AMEL" parent).map Prod.fst)
        = pySorted ((eraseKey "AMEL" child).map Prod.fst)
      rw [eraseKey_map_fst, eraseKey_map_fst]
      exact pySorted_eq_of_perm (hperm.erase "AMEL")
    refine ⟨(⟨⟨eraseKey "AMEL" parent⟩, ⟨eraseKey "AMEL" child⟩,
        Profile.markers ⟨eraseKey "AMEL" parent⟩, pop⟩,
      eraseKey "AMEL" parent, eraseKey "AMEL" child), ?_⟩
    unfold duoInit
    rw [if_pos hsort, hlc, hlp]
    simp only []
    rw [if_pos hmk]

/-- Claim C6 witness: two single-marker profiles over the same marker CSF1PO
with two alleles each have nodup keys, identical marker sets and well-formed
entries, so construction succeeds. -/
theorem c6_construction_witness :
    (c6parent.map Prod.fst).Nodup ∧ (c6child.map Prod.fst).Nodup
    ∧ ∃ x, duoInit c6parent c6child c6pop = .ok x :=
  ⟨by decide, by decide,
    (c6_construction_succeeds_iff (by decide) (by decide)).mpr
      ⟨fun _ => Iff.rfl, by decide, by decide⟩⟩

/-- Claim C9 as amended: in a successfully constructed case, a shared marker
whose child allele pair is homozygous is always put on the inconsistency
list; provided that marker's name is a non-empty string (Python-truthy, as
every real marker name is), the `inconsistent_markers` property is truthy
and `paternity_index` short-circuits to the diagnostic string, never
reaching the numeric homozygous-child branches of the ratio computation. -/
theorem c9_amended_homozygous_child_diagnostic {parent child : RawProfile}
    {pop : Population} {d : Duo} {pr cr : RawProfile}
    (h : duoInit parent child pop = .ok (d, pr, cr))
    {m : Marker} {p c : List ℚ}
    (hm : (m, (p, c)) ∈ d.parent.markers.zip (d.parent.alleles.zip d.child.alleles))
    (hhom : is_heterozygous c = false) (hname : m ≠ "") :
    m ∈ d.inconsistentList
    ∧ ∃ l, d.inconsistent_markers = .markers l ∧ m ∈ l
        ∧ d.paternity_index = .ok (.str (diagString l.length)) := by
  obtain ⟨hlen, -, -, -⟩ := duo_child_pair_length h hm
  have hmem : m ∈ d.inconsistentList := by
    rw [mem_inconsistentList_iff hm (duo_triples_uniq h hm)]
    cases c with
    | nil => simp at hlen
    | cons a tail =>
      cases tail with
      | nil => simp at hlen
      | cons b tail2 =>
        cases tail2 with
        | cons x tail3 => simp at hlen
        | nil =>
          have hab : a = b := is_heterozygous_pair_eq hhom
          subst hab
          by_cases hp : a ∈ p <;> simp [hp]
  have hex : ∃ x ∈ d.inconsistentList, ¬x = "" := ⟨m, hmem, hname⟩
  have hne : d.inconsistentList ≠ [] := List.ne_nil_of_mem hmem
  refine ⟨hmem, d.inconsistentList, ?_, hmem, ?_⟩
  · unfold Duo.inconsistent_markers
    simp [hex]
  · unfold Duo.paternity_index Duo.inconsistent_markers
    simp [hex, hne]

/-- Claim C9 amended witness: parent {CSF1PO: [13,14]}, child {CSF1PO: [13,13]}
constructs successfully, the child pair is homozygous and the marker name is
non-empty, so CSF1PO is flagged and paternity_index returns the diagnostic. -/
theorem c9_amended_witness :
    "CSF1PO" ∈ (duoOf c9parent c9child c9pop).inconsistentList
    ∧ ∃ l, (duoOf c9parent c9child c9pop).inconsistent_markers = .markers l
        ∧ "CSF1PO" ∈ l
        ∧ (duoOf c9parent c9child c9pop).paternity_index
            = .ok (.str (diagString l.length)) :=
  c9_amended_homozygous_child_diagnostic
    (show duoInit c9parent c9child c9pop
        = .ok (duoOf c9parent c9child c9pop, c9parent, c9child) by
      with_unfolding_all decide)
    (show ("CSF1PO", (([13, 14] : List ℚ), ([13, 13] : List ℚ)))
        ∈ (duoOf c9parent c9child c9pop).parent.markers.zip
          ((duoOf c9parent c9child c9pop).parent.alleles.zip
            (duoOf c9parent c9child c9pop).child.alleles) by
      with_unfolding_all decide)
    (by decide) (by decide)

/-- Claim C10: the profile dicts passed by the caller are mutated, not
copied: after a successful construction the caller's parent dict equals its
original value with the AMEL entry deleted (likewise the child dict), the
AMEL key no longer resolves, every other key still resolves to its original
value, and the constructed object stores those same mutated dicts. -/
theorem c10_amel_deleted_from_input {parent child : RawProfile} {pop : Population}
    {d : Duo} {pr cr : RawProfile}
    (h : duoInit parent child pop = .ok (d, pr, cr)) :
    d.parent.profile = pr ∧ d.child.profile = cr
    ∧ ((parent.map Prod.fst).Nodup →
        pr = eraseKey "AMEL" parent ∧ alookup pr "AMEL" = none
        ∧ ∀ k, k ≠ "AMEL" → alookup pr k = alookup parent k)
    ∧ ((child.map Prod.fst).Nodup →
        cr = eraseKey "AMEL" child ∧ alookup cr "AMEL" = none
        ∧ ∀ k, k ≠ "AMEL" → alookup cr k = alookup child k) := by
  obtain ⟨hpr, hcr, hd, -, -, -, -⟩ := duoInit_ok h
  subst hpr; subst hcr; subst hd
  exact ⟨rfl, rfl,
    fun hnd => ⟨rfl, alookup_eraseKey_self hnd, fun k hk => alookup_eraseKey_ne hk⟩,
    fun hnd => ⟨rfl, alookup_eraseKey_self hnd, fun k hk => alookup_eraseKey_ne hk⟩⟩

/-- Claim C10 witness: profiles containing AMEL construct successfully; the
caller's parent dict afterwards is exactly the original without the AMEL
entry: AMEL is gone, CSF1PO is untouched, and the stored profile is that
same dict. -/
theorem c10_mutation_witness :
    "AMEL" ∈ c10parent.map Prod.fst
    ∧ (duoOf c10parent c10child c10pop).parent.profile = [("CSF1PO", [13, 14])]
    ∧ ([("CSF1PO", [13, 14])] : RawProfile) = eraseKey "AMEL" c10parent
    ∧ alookup ([("CSF1PO", [13, 14])] : RawProfile) "AMEL" = none
    ∧ alookup ([("CSF1PO", [13, 14])] : RawProfile) "CSF1PO" = alookup c10parent "CSF1PO" := by
  have hr := c10_amel_deleted_from_input
    (show duoInit c10parent c10child c10pop
        = .ok (duoOf c10parent c10child c10pop,
            [("CSF1PO", [13, 14])], [("CSF1PO", [13, 15])]) by
      with_unfolding_all decide)
  obtain ⟨h1, -, h3, -⟩ := hr
  obtain ⟨h3a, h3b, h3c⟩ := h3 (by decide)
  exact ⟨by decide, h1, h3a, h3b, h3c "CSF1PO" (by decide)⟩
